import Mathlib

/-!
Shallow embedding of `src/local-conditional-card.ts` (the Local Conditional
Card custom element) and proofs about its visibility state machine, event
coalescer, widget cache, configuration handling and size reporting.

JS `this`-mutating methods are embedded as explicit state-passing functions
`LCC → LCC` (or `LCC → LCC × List Effect` when the method initiates side
effects such as `localStorage.setItem` or `dispatchEvent`).  Deferred work
(`queueMicrotask`, `requestAnimationFrame`) is embedded as separate step
functions invoked at the corresponding scheduling boundary.
-/

namespace LocalConditionalCard

/-- Modelled from the spec: the action string constants `SHOW`, `HIDE`,
`TOGGLE` are imported from `./const`, a file of this repository that is not
under `src/`; the spec fixes the signal alphabet to `show`/`hide`/`toggle`
(with `default : "show"|"hide"`), so the constants are the corresponding
lowercase strings. -/
def SHOW : String := "show"

/-- Modelled from the spec: see `SHOW`. -/
def HIDE : String := "hide"

/-- Modelled from the spec: see `SHOW`. -/
def TOGGLE : String := "toggle"

/-- A Lovelace child-card config (`LovelaceCardConfig`), abstracted to the two
observations `_cardConfigKey` makes of it: the result of `JSON.stringify`
(`none` models a throw on a non-serializable config) and the `type` field
(`none` models an absent `type`, in which case JS falls back to
`String(cfg)`, i.e. `"[object Object]"`). -/
structure CardCfg where
  serialized : Option String
  type : Option String
deriving DecidableEq, Repr

/-- The card's own configuration (`LocalConditionalCardConfig`).
`card` is `Option` because `setConfig` checks `!config.card` at runtime;
`hide_in_preview` is `Option Bool` (`undefined` handled via `?? false`);
`persist_state` is a truthiness-checked optional boolean, embedded as `Bool`
with `false` for absent. -/
structure Config where
  id : String
  «default» : String
  card : Option CardCfg
  persist_state : Bool
  hide_in_preview : Option Bool
deriving DecidableEq, Repr

instance : DecidableEq (Except Unit Nat) := fun a b =>
  match a, b with
  | .ok m, .ok n => if h : m = n then isTrue (by rw [h]) else isFalse (by simp [h])
  | .error u, .error v => isTrue (by cases u; cases v; rfl)
  | .ok _, .error _ => isFalse (by simp)
  | .error _, .ok _ => isFalse (by simp)

/-- The live child card element, abstracted to the observations the wrapper
makes of it: its `localName` and its optional `getCardSize` capability
(`none` = no such method; `some (.error ())` = the method throws;
`some (.ok n)` = it returns `n`). -/
structure ChildCard where
  localName : String
  sizeCap : Option (Except Unit Nat)
deriving DecidableEq, Repr

/-- One entry of the broadcast payload's `ids` array: either a plain string
id or a mapping from ids to action strings (a JS object, embedded as an
association list with the first binding of a key the effective one). -/
inductive IdEntry where
  | str (s : String)
  | map (entries : List (String × String))
deriving DecidableEq, Repr

/-- A well-formed broadcast payload, i.e. one that passes the shape checks in
`_processQueuedLovelaceEvent` (`detail` holds the coalescer key, `ids` is an
array, `action` is present). -/
structure Payload where
  ids : List IdEntry
  action : String
deriving DecidableEq, Repr

/-- The mutable instance state of the element: configuration, the reactive
`show`/`visible`/`preview` fields, the current child card, and the event
coalescer's single-slot buffer (`_lastEvent`) and flag (`_pendingEvent`).
`scheduled` counts the outstanding `requestAnimationFrame` callbacks, so the
"at most one scheduled delivery" invariant is expressible. -/
structure LCC where
  config : Option Config
  «show» : Bool
  visible : Bool
  preview : Bool
  card : Option ChildCard
  lastEvent : Option Payload
  pending : Bool
  scheduled : Nat
deriving DecidableEq, Repr

/-- Side effects initiated by `_computeAndSetVisible`: a (deferred)
`localStorage.setItem` and the bubbling `card-visibility-changed` event. -/
inductive Effect where
  | persistWrite (key value : String)
  | visibilityChanged
deriving DecidableEq, Repr

/-- `_getStorageKey`. -/
def getStorageKey (c : Config) : String :=
  "local_conditional_card_state_" ++ c.id

/-- `${b}` for a boolean, as written to `localStorage`. -/
def boolStr (b : Bool) : String :=
  if b then "true" else "false"

/-- `_computeVisibility`:
`(this.preview && !(this.config?.hide_in_preview ?? false)) || this.show ||
(this.card && this.card.localName === "hui-error-card")` (the source
repeats the `localName` test twice; the disjunction is idempotent). -/
def computeVisibility (s : LCC) : Bool :=
  (s.preview && !((s.config.bind (·.hide_in_preview)).getD false)) ||
  s.show ||
  (match s.card with
   | some c => c.localName == "hui-error-card"
   | none => false)

/-- `_computeAndSetVisible`: recompute `visible`; if it changed, schedule a
persistence write of `${this.show}` when `persist_state` is set, and
dispatch one bubbling `card-visibility-changed` event. -/
def computeAndSetVisible (s : LCC) : LCC × List Effect :=
  let prev := s.visible
  let v := computeVisibility s
  let s' := { s with visible := v }
  if prev == v then (s', [])
  else
    let writes :=
      match s.config with
      | some c =>
          if c.persist_state then [Effect.persistWrite (getStorageKey c) (boolStr s'.«show»)]
          else []
      | none => []
    (s', writes ++ [Effect.visibilityChanged])

/-- The `ids.find((id) => typeof id === "object" && this.config && this.config.id in id)`
predicate: the entry is an object whose keys include this instance's id. -/
def idEntryMatches (myId : String) (e : IdEntry) : Bool :=
  match e with
  | .map m => (m.lookup myId).isSome
  | .str _ => false

/-- The action-decoding part of `_processQueuedLovelaceEvent`: from the raw
`{ids, action}` payload to the effective action string.  When `action` is
`"set"` and no matching mapping entry is found, the raw `"set"` string is kept
(it then falls to the `switch` default, a no-op); when `this.config` is unset
the mapping search fails (`this.config &&` guard) and `ids.includes(undefined)`
is false, hence `"none"`. -/
def decodeAction (cfg? : Option Config) (ids : List IdEntry) (action : String) : String :=
  match cfg? with
  | none => if action == "set" then "set" else "none"
  | some c =>
      if action == "set" then
        match ids.find? (idEntryMatches c.id) with
        | some (IdEntry.map m) => (m.lookup c.id).getD "none"
        | _ => "set"
      else if ids.contains (IdEntry.str c.id) then action else "none"

/-- The `switch (action)` of `_processQueuedLovelaceEvent` acting on
`this.show`: `SHOW` sets, `HIDE` clears, `TOGGLE` negates, anything else is
a no-op. -/
def applyAction (a : String) (b : Bool) : Bool :=
  if a == SHOW then true
  else if a == HIDE then false
  else if a == TOGGLE then !b
  else b

/-- `_handleLovelaceDomEvent`: store the event in the single-slot buffer
(last-write-wins); if no delivery is pending, mark pending and schedule one
`requestAnimationFrame` callback (`scheduled` counts outstanding callbacks). -/
def handleLovelaceDomEvent (e : Payload) (s : LCC) : LCC :=
  let s1 := { s with lastEvent := some e }
  if s1.pending then s1
  else { s1 with pending := true, scheduled := s1.scheduled + 1 }

/-- `_processQueuedLovelaceEvent` (the animation-frame callback): clear the
pending flag, drain the buffer; if empty, return; otherwise decode the
payload, apply the action to `show`, and reconcile via
`_computeAndSetVisible`. -/
def processQueuedLovelaceEvent (s : LCC) : LCC × List Effect :=
  let s1 := { s with pending := false, scheduled := s.scheduled - 1 }
  match s1.lastEvent with
  | none => (s1, [])
  | some p =>
      let s2 := { s1 with lastEvent := none }
      let a := decodeAction s2.config p.ids p.action
      computeAndSetVisible { s2 with «show» := applyAction a s2.«show» }

/-- One rendering frame: a burst of raw broadcast events arrives (each handled
by `_handleLovelaceDomEvent`), then the frame boundary is reached and the
scheduled `requestAnimationFrame` callback, if any, fires. -/
def runFrame (events : List Payload) (s : LCC) : LCC × List Effect :=
  let s1 := events.foldl (fun acc e => handleLovelaceDomEvent e acc) s
  if s1.scheduled == 0 then (s1, []) else processQueuedLovelaceEvent s1

/-- A sequence of rendering frames, accumulating the initiated effects. -/
def runFrames : List (List Payload) → LCC → LCC × List Effect
  | [], s => (s, [])
  | fr :: rest, s =>
      let r := runFrame fr s
      let r' := runFrames rest r.1
      (r'.1, r.2 ++ r'.2)

/-- The last element of a burst of buffered signals (the one the single-slot
buffer holds at the frame boundary). -/
def lastSignal : List Payload → Option Payload
  | [] => none
  | [p] => some p
  | _ :: q :: rest => lastSignal (q :: rest)

/-- The event coalescer's bookkeeping invariant: a `requestAnimationFrame`
callback is outstanding exactly when `_pendingEvent` is set — in particular
at most one delivery is ever scheduled. -/
def CoalescerInv (s : LCC) : Prop :=
  s.scheduled = (if s.pending then 1 else 0)

/-- The synchronous part of `setConfig` (the two `queueMicrotask` bodies are
embedded separately as `createCardTask`-like steps and `restoreFromStorage`).
JS mutations of `this` made before a `throw` persist, so the state is
returned alongside the error. -/
def setConfig (cfg? : Option Config) (s : LCC) : Except String Unit × LCC :=
  match cfg? with
  | none => (.error "Missing configuration", s)
  | some c =>
      let s1 := { s with config := some c, «show» := c.«default» == "show" }
      match c.card with
      | none => (.error "No card configured", s1)
      | some _ => (.ok (), s1)

/-- The persisted-state `queueMicrotask` body of `setConfig` (run only when
`persist_state` is set): read the stored string (`stored = none` models a
missing key; a thrown read is caught and behaves the same), parse it as
`stored === "true"`, and assign `show` (then reconcile) only when the parsed
value differs from the current `show`. -/
def restoreFromStorage (stored : Option String) (s : LCC) : LCC × List Effect :=
  match stored with
  | none => (s, [])
  | some v =>
      let parsed : Bool := v == "true"
      if parsed == s.«show» then (s, [])
      else computeAndSetVisible { s with «show» := parsed }

/-- `getCardSize`: 0 when not effectively visible; else 1 when no card yet;
else delegate to the card's `getCardSize` capability when present (falling
back to 1 when the delegate throws), and 1 when absent. -/
def getCardSize (s : LCC) : Nat :=
  if !computeVisibility s then 0
  else
    match s.card with
    | none => 1
    | some c =>
        match c.sizeCap with
        | some (.ok n) => n
        | some (.error _) => 1
        | none => 1

/-- `_cardConfigKey`: `JSON.stringify(cfg)`, falling back on a serialization
throw to `cfg.type ?? String(cfg)` (the latter being `"[object Object]"` for
a plain config object). -/
def cardConfigKey (cfg : CardCfg) : String :=
  match cfg.serialized with
  | some str => str
  | none => cfg.type.getD "[object Object]"

/-- The widget cache: `cardCache : Map<string, LovelaceCard>` embedded as an
association list from keys to instance identities (numbers allocated from a
counter, so "identical instance" is expressible). -/
structure CardCache where
  entries : List (String × Nat)
  nextId : Nat
deriving DecidableEq, Repr

/-- The cache-lookup/creation core of `_createCard`: return the cached
instance for the config's key if present, otherwise create a fresh instance
and cache it under that key. -/
def createCard (cache : CardCache) (cfg : CardCfg) : Nat × CardCache :=
  let key := cardConfigKey cfg
  match cache.entries.lookup key with
  | some el => (el, cache)
  | none => (cache.nextId, ⟨(key, cache.nextId) :: cache.entries, cache.nextId + 1⟩)

/-! ### Concrete states used by witnesses and counterexamples -/

/-- A configuration with persistence enabled, used by concrete test states. -/
def cfgPersist : Config :=
  { id := "a", «default» := "show", card := some ⟨some "{}", some "x"⟩,
    persist_state := true, hide_in_preview := none }

/-- A configuration with persistence disabled and `default = "hide"`. -/
def cfgPlain : Config :=
  { id := "a", «default» := "hide", card := some ⟨some "{}", some "x"⟩,
    persist_state := false, hide_in_preview := none }

/-- A quiescent instance state wired to `cfgPersist`, currently shown. -/
def statePersistShown : LCC :=
  { config := some cfgPersist, «show» := true, visible := true,
    preview := false, card := some ⟨"div", none⟩, lastEvent := none,
    pending := false, scheduled := 0 }

/-- A quiescent instance state wired to `cfgPlain`, currently hidden. -/
def statePlainHidden : LCC :=
  { config := some cfgPlain, «show» := false, visible := false,
    preview := false, card := some ⟨"div", none⟩, lastEvent := none,
    pending := false, scheduled := 0 }

/-- A `{ids:["a"], action:"show"}` broadcast payload. -/
def payloadShow : Payload := ⟨[IdEntry.str "a"], "show"⟩

/-- A `{ids:["a"], action:"toggle"}` broadcast payload. -/
def payloadToggle : Payload := ⟨[IdEntry.str "a"], "toggle"⟩

/-- `statePersistShown` with a stale `visible` field (reconciliation due). -/
def statePersistStale : LCC := { statePersistShown with visible := false }

/-- `statePersistShown` in preview mode (visible independently of `show`). -/
def statePreviewShown : LCC := { statePersistShown with preview := true }

/-- A configuration whose widget spec (`card`) is missing. -/
def cfgNoCard : Config :=
  { id := "b", «default» := "show", card := none,
    persist_state := false, hide_in_preview := none }

/-! ### Helper lemmas -/

@[simp] lemma handle_lastEvent (e : Payload) (s : LCC) :
    (handleLovelaceDomEvent e s).lastEvent = some e := by
  simp only [handleLovelaceDomEvent]; split <;> rfl

@[simp] lemma handle_pending (e : Payload) (s : LCC) :
    (handleLovelaceDomEvent e s).pending = true := by
  simp only [handleLovelaceDomEvent]
  split <;> simp_all

lemma handle_scheduled (e : Payload) (s : LCC) :
    (handleLovelaceDomEvent e s).scheduled =
      if s.pending then s.scheduled else s.scheduled + 1 := by
  simp only [handleLovelaceDomEvent]
  split <;> simp_all

@[simp] lemma handle_config (e : Payload) (s : LCC) :
    (handleLovelaceDomEvent e s).config = s.config := by
  simp only [handleLovelaceDomEvent]; split <;> rfl

@[simp] lemma handle_show (e : Payload) (s : LCC) :
    (handleLovelaceDomEvent e s).«show» = s.«show» := by
  simp only [handleLovelaceDomEvent]; split <;> rfl

@[simp] lemma handle_visible (e : Payload) (s : LCC) :
    (handleLovelaceDomEvent e s).visible = s.visible := by
  simp only [handleLovelaceDomEvent]; split <;> rfl

@[simp] lemma handle_preview (e : Payload) (s : LCC) :
    (handleLovelaceDomEvent e s).preview = s.preview := by
  simp only [handleLovelaceDomEvent]; split <;> rfl

@[simp] lemma handle_card (e : Payload) (s : LCC) :
    (handleLovelaceDomEvent e s).card = s.card := by
  simp only [handleLovelaceDomEvent]; split <;> rfl

lemma computeAndSetVisible_fst (s : LCC) :
    (computeAndSetVisible s).1 = { s with visible := computeVisibility s } := by
  simp only [computeAndSetVisible]
  split <;> rfl

@[simp] lemma casv_show (s : LCC) :
    (computeAndSetVisible s).1.«show» = s.«show» := by
  rw [computeAndSetVisible_fst]

@[simp] lemma casv_config (s : LCC) :
    (computeAndSetVisible s).1.config = s.config := by
  rw [computeAndSetVisible_fst]

@[simp] lemma casv_pending (s : LCC) :
    (computeAndSetVisible s).1.pending = s.pending := by
  rw [computeAndSetVisible_fst]

@[simp] lemma casv_scheduled (s : LCC) :
    (computeAndSetVisible s).1.scheduled = s.scheduled := by
  rw [computeAndSetVisible_fst]

@[simp] lemma casv_lastEvent (s : LCC) :
    (computeAndSetVisible s).1.lastEvent = s.lastEvent := by
  rw [computeAndSetVisible_fst]

lemma casv_effects_of_eq (t : LCC) (h : computeVisibility t = t.visible) :
    (computeAndSetVisible t).2 = [] := by
  simp [computeAndSetVisible, h.symm]

lemma casv_write_val (t : LCC) (k val : String)
    (h : Effect.persistWrite k val ∈ (computeAndSetVisible t).2) :
    val = boolStr t.«show» := by
  by_cases hv : computeVisibility t = t.visible
  · rw [casv_effects_of_eq t hv] at h
    simp at h
  · have hb : (t.visible == computeVisibility t) = false :=
      beq_eq_false_iff_ne.mpr (fun hh => hv hh.symm)
    cases hc : t.config with
    | none => simp [computeAndSetVisible, hb, hc] at h
    | some c =>
        cases hp : c.persist_state with
        | false => simp [computeAndSetVisible, hb, hc, hp] at h
        | true =>
            simp [computeAndSetVisible, hb, hc, hp] at h
            exact h.2

lemma casv_effects_of_ne_persist (t : LCC) (c : Config)
    (hv : computeVisibility t ≠ t.visible) (hc : t.config = some c)
    (hp : c.persist_state = true) :
    (computeAndSetVisible t).2 =
      [Effect.persistWrite (getStorageKey c) (boolStr t.«show»),
       Effect.visibilityChanged] := by
  have hb : (t.visible == computeVisibility t) = false :=
    beq_eq_false_iff_ne.mpr (fun hh => hv hh.symm)
  simp [computeAndSetVisible, hb, hc, hp]

lemma handle_of_pending (e : Payload) (t : LCC) (ht : t.pending = true) :
    handleLovelaceDomEvent e t = { t with lastEvent := some e } := by
  simp [handleLovelaceDomEvent, ht]

lemma handle_of_not_pending (e : Payload) (t : LCC) (ht : t.pending = false) :
    handleLovelaceDomEvent e t =
      { t with
        lastEvent := some e,
        pending := true,
        scheduled := t.scheduled + 1 } := by
  simp [handleLovelaceDomEvent, ht]

lemma handle_fixpoint (p : Payload) (t : LCC) (h1 : t.pending = true)
    (h2 : t.lastEvent = some p) : handleLovelaceDomEvent p t = t := by
  obtain ⟨cfg, shw, vis, prev, card, le, pend, sch⟩ := t
  simp only at h1 h2
  subst h1
  subst h2
  simp [handleLovelaceDomEvent]

lemma lastSignal_cons : ∀ (l : List Payload) (p : Payload),
    lastSignal (p :: l) = some ((lastSignal l).getD p) := by
  intro l
  induction l with
  | nil => intro p; rfl
  | cons q l' ih =>
      intro p
      rw [show lastSignal (p :: q :: l') = lastSignal (q :: l') from rfl, ih q]
      rfl

lemma foldl_handle_pending : ∀ (events : List Payload) (t : LCC),
    t.pending = true →
    events.foldl (fun acc e => handleLovelaceDomEvent e acc) t =
      match lastSignal events with
      | none => t
      | some e => { t with lastEvent := some e } := by
  intro events
  induction events with
  | nil => intro t _; rfl
  | cons e es ih =>
      intro t ht
      rw [List.foldl_cons, ih (handleLovelaceDomEvent e t) (handle_pending e t),
        handle_of_pending e t ht, lastSignal_cons es e]
      cases hl : lastSignal es <;> simp [hl]

lemma foldl_handle_quiescent (e : Payload) (es : List Payload) (t : LCC)
    (ht : t.pending = false) :
    (e :: es).foldl (fun acc x => handleLovelaceDomEvent x acc) t =
      { t with
        lastEvent := some ((lastSignal es).getD e),
        pending := true,
        scheduled := t.scheduled + 1 } := by
  rw [List.foldl_cons, handle_of_not_pending e t ht,
    foldl_handle_pending es _ rfl]
  cases hl : lastSignal es <;> simp [hl]

lemma runFrame_quiescent (events : List Payload) (s : LCC)
    (hp : s.pending = false) (hl : s.lastEvent = none) (hs : s.scheduled = 0) :
    runFrame events s =
      match lastSignal events with
      | none => (s, [])
      | some p =>
          computeAndSetVisible
            { s with
              «show» := applyAction (decodeAction s.config p.ids p.action) s.«show» } := by
  obtain ⟨cfg, shw, vis, prev, card, le, pend, sch⟩ := s
  simp only at hp hl hs
  subst hp
  subst hl
  subst hs
  cases events with
  | nil => rfl
  | cons e es =>
      unfold runFrame
      rw [foldl_handle_quiescent e es _ rfl, lastSignal_cons es e]
      rfl

lemma foldl_handle_replicate (p : Payload) (n : ℕ) : ∀ t : LCC,
    (List.replicate (n + 1) p).foldl (fun acc e => handleLovelaceDomEvent e acc) t =
      handleLovelaceDomEvent p t := by
  induction n with
  | zero => intro t; rfl
  | succ n ih =>
      intro t
      rw [List.replicate_succ, List.foldl_cons, ih (handleLovelaceDomEvent p t)]
      exact handle_fixpoint p _ (handle_pending p t) (handle_lastEvent p t)

lemma runFrames_show : ∀ (frames : List (List Payload)) (s : LCC),
    s.pending = false → s.lastEvent = none → s.scheduled = 0 →
    (runFrames frames s).1.«show» =
      (frames.filterMap lastSignal).foldl
        (fun b p => applyAction (decodeAction s.config p.ids p.action) b)
        s.«show» := by
  intro frames
  induction frames with
  | nil => intro s _ _ _; rfl
  | cons fr rest ih =>
      intro s hp hl hs
      have hrf := runFrame_quiescent fr s hp hl hs
      cases hlast : lastSignal fr with
      | none =>
          rw [hlast] at hrf
          simp only [runFrames, hrf, List.filterMap_cons, hlast]
          exact ih s hp hl hs
      | some p =>
          rw [hlast] at hrf
          simp only [runFrames, hrf, List.filterMap_cons, hlast, List.foldl_cons]
          rw [ih _ (by simp [hp]) (by simp [hl]) (by simp [hs])]
          simp

lemma filterMap_singleton_frames (sigs : List Payload) :
    (sigs.map (fun p => [p])).filterMap lastSignal = sigs := by
  induction sigs with
  | nil => rfl
  | cons p rest ih => simp [List.filterMap_cons, lastSignal, ih]

/-! ### C1: effective visibility formula -/

/-- C1: for every state, `_computeVisibility` returns true exactly when
(preview is true and `hide_in_preview` is false/unset) or `explicitShow`
(`this.show`) is true or the current child card is the distinguished
`hui-error-card` kind; in particular preview with `hide_in_preview`
false/unset forces true regardless of `show`, and an error card forces true
regardless of all other inputs. -/
lemma computeVisibility_iff (s : LCC) :
    computeVisibility s = true ↔
      ((s.preview = true ∧
          (∀ c, s.config = some c →
            c.hide_in_preview = none ∨ c.hide_in_preview = some false)) ∨
        s.«show» = true ∨
        (∃ cc, s.card = some cc ∧ cc.localName = "hui-error-card")) := by
  obtain ⟨cfg, shw, vis, prev, card, le, pend, sch⟩ := s
  cases cfg with
  | none => cases card <;> simp [computeVisibility, beq_iff_eq] <;> tauto
  | some c =>
      cases hip : c.hide_in_preview with
      | none => cases card <;> simp [computeVisibility, hip, beq_iff_eq] <;> tauto
      | some b =>
          cases b <;> cases card <;> simp [computeVisibility, hip, beq_iff_eq] <;> tauto

theorem computeVisibility_spec (s : LCC) :
    (computeVisibility s = true ↔
      ((s.preview = true ∧
          (∀ c, s.config = some c →
            c.hide_in_preview = none ∨ c.hide_in_preview = some false)) ∨
        s.«show» = true ∨
        (∃ cc, s.card = some cc ∧ cc.localName = "hui-error-card"))) ∧
    (s.preview = true →
      (∀ c, s.config = some c →
        c.hide_in_preview = none ∨ c.hide_in_preview = some false) →
      computeVisibility s = true) ∧
    (∀ cc, s.card = some cc → cc.localName = "hui-error-card" →
      computeVisibility s = true) := by
  refine ⟨computeVisibility_iff s, ?_, ?_⟩
  · intro hp hcfg
    exact (computeVisibility_iff s).mpr (Or.inl ⟨hp, hcfg⟩)
  · intro cc hcc hn
    exact (computeVisibility_iff s).mpr (Or.inr (Or.inr ⟨cc, hcc, hn⟩))

/-- C1 witness: concrete states exercising the hypotheses of
`computeVisibility_spec`. -/
theorem computeVisibility_spec_witness :
    computeVisibility
      { config := some { id := "a", «default» := "hide", card := none,
                         persist_state := false, hide_in_preview := none },
        «show» := false, visible := false, preview := true, card := none,
        lastEvent := none, pending := false, scheduled := 0 } = true ∧
    computeVisibility
      { config := none, «show» := false, visible := false, preview := false,
        card := some { localName := "hui-error-card", sizeCap := none },
        lastEvent := none, pending := false, scheduled := 0 } = true := by
  constructor
  · exact (computeVisibility_spec _).2.1 rfl
      (by intro c hc; cases Option.some.inj hc; exact Or.inl rfl)
  · exact (computeVisibility_spec _).2.2 _ rfl rfl

/-! ### C9: size reporting -/

/-- C9: `getCardSize` returns 0 whenever effective visibility is false,
regardless of the child card's reported size; when effectively visible it
returns 1 when no card exists or the card has no `getCardSize` capability,
delegates to the capability when present, and returns 1 when the delegate
throws. -/
theorem getCardSize_spec (s : LCC) :
    (computeVisibility s = false → getCardSize s = 0) ∧
    (computeVisibility s = true →
      (s.card = none → getCardSize s = 1) ∧
      (∀ cc, s.card = some cc → cc.sizeCap = none → getCardSize s = 1) ∧
      (∀ cc n, s.card = some cc → cc.sizeCap = some (.ok n) → getCardSize s = n) ∧
      (∀ cc, s.card = some cc → cc.sizeCap = some (.error ()) → getCardSize s = 1)) := by
  constructor
  · intro h
    simp [getCardSize, h]
  · intro h
    refine ⟨?_, ?_, ?_, ?_⟩
    · intro hc; simp [getCardSize, h, hc]
    · intro cc hc hcap; simp [getCardSize, h, hc, hcap]
    · intro cc n hc hcap; simp [getCardSize, h, hc, hcap]
    · intro cc hc hcap; simp [getCardSize, h, hc, hcap]

/-- C9 witness: a hidden state reports size 0 even though its card would
report 5; a visible state delegates (5), falls back on a throwing delegate
(1), and defaults with no capability (1). -/
theorem getCardSize_spec_witness :
    getCardSize
      { config := none, «show» := false, visible := false, preview := false,
        card := some { localName := "div", sizeCap := some (.ok 5) },
        lastEvent := none, pending := false, scheduled := 0 } = 0 ∧
    getCardSize
      { config := none, «show» := true, visible := true, preview := false,
        card := some { localName := "div", sizeCap := some (.ok 5) },
        lastEvent := none, pending := false, scheduled := 0 } = 5 ∧
    getCardSize
      { config := none, «show» := true, visible := true, preview := false,
        card := some { localName := "div", sizeCap := some (.error ()) },
        lastEvent := none, pending := false, scheduled := 0 } = 1 ∧
    getCardSize
      { config := none, «show» := true, visible := true, preview := false,
        card := some { localName := "div", sizeCap := none },
        lastEvent := none, pending := false, scheduled := 0 } = 1 := by
  refine ⟨?_, ?_, ?_, ?_⟩
  · exact (getCardSize_spec _).1 (by decide)
  · exact ((getCardSize_spec _).2 (by decide)).2.2.1 _ 5 rfl rfl
  · exact ((getCardSize_spec _).2 (by decide)).2.2.2 _ rfl rfl
  · exact ((getCardSize_spec _).2 (by decide)).2.1 _ rfl rfl

/-! ### C10: persisted-string parsing -/

/-- C10: the persisted-value restore parses the stored string as true only
when it is exactly `"true"` (any other stored string restores `show` to
false), and it assigns `show` (and reconciles) only when the parsed value
differs from the current `show` — otherwise state and effects are untouched. -/
theorem restore_parse_spec (s : LCC) (v : String) :
    ((restoreFromStorage (some v) s).1.«show» = (v == "true")) ∧
    (v ≠ "true" → (restoreFromStorage (some v) s).1.«show» = false) ∧
    ((v == "true") = s.«show» → restoreFromStorage (some v) s = (s, [])) := by
  refine ⟨?_, ?_, ?_⟩
  · simp only [restoreFromStorage]
    split
    · next h => simpa using (beq_iff_eq.mp h).symm
    · simp
  · intro hv
    simp only [restoreFromStorage]
    split
    · next h => simpa [beq_eq_false_iff_ne.mpr hv] using (beq_iff_eq.mp h).symm
    · simp [beq_eq_false_iff_ne.mpr hv]
  · intro h
    simp [restoreFromStorage, h]

/-- C10 witness: stored `"TRUE"` restores `show = false` on a `show = true`
state; stored `"true"` on a `show = true` state changes nothing. -/
theorem restore_parse_spec_witness :
    (restoreFromStorage (some "TRUE")
      { config := none, «show» := true, visible := true, preview := false,
        card := none, lastEvent := none, pending := false,
        scheduled := 0 }).1.«show» = false ∧
    restoreFromStorage (some "true")
      { config := none, «show» := true, visible := true, preview := false,
        card := none, lastEvent := none, pending := false, scheduled := 0 } =
      ({ config := none, «show» := true, visible := true, preview := false,
         card := none, lastEvent := none, pending := false, scheduled := 0 }, []) := by
  constructor
  · exact (restore_parse_spec _ "TRUE").2.1 (by decide)
  · exact (restore_parse_spec _ "true").2.2 (by decide)

/-! ### C4: broadcast payload decoding -/

/-- C4: for a well-formed `{ids, action}` payload, when `action` is `"set"`
the decoder searches `ids` for a mapping entry whose keys include this
instance's id and takes the value at that key as the effective action; when
no such entry exists, no action is applied to `show`.  For any other action,
the effective action is the given one when `ids` contains the id by plain
membership, else `"none"`, which is a no-op on `show`. -/
theorem decodeAction_spec (c : Config) (ids : List IdEntry) (action : String) (b : Bool) :
    (action = "set" →
      (∀ m v, ids.find? (idEntryMatches c.id) = some (IdEntry.map m) →
        m.lookup c.id = some v → decodeAction (some c) ids action = v) ∧
      (ids.find? (idEntryMatches c.id) = none →
        applyAction (decodeAction (some c) ids action) b = b)) ∧
    (action ≠ "set" →
      (ids.contains (IdEntry.str c.id) = true →
        decodeAction (some c) ids action = action) ∧
      (ids.contains (IdEntry.str c.id) = false →
        decodeAction (some c) ids action = "none" ∧ applyAction "none" b = b)) := by
  constructor
  · intro ha
    subst ha
    constructor
    · intro m v hfind hval
      simp [decodeAction, hfind, hval]
    · intro hfind
      simp [decodeAction, hfind, applyAction, SHOW, HIDE, TOGGLE]
  · intro ha
    have ha' : (action == "set") = false := beq_eq_false_iff_ne.mpr ha
    constructor
    · intro hmem
      have hmem' : IdEntry.str c.id ∈ ids := by simpa using hmem
      simp [decodeAction, ha', hmem']
    · intro hmem
      have hmem' : IdEntry.str c.id ∉ ids := by simpa using hmem
      refine ⟨by simp [decodeAction, ha', hmem'], ?_⟩
      simp [applyAction, SHOW, HIDE, TOGGLE]

/-- C4 witness: with id `"a"`, a `"set"` payload whose `ids` holds the
mapping `{a: hide}` decodes to `"hide"`; a `"set"` payload with no matching
mapping leaves `show` untouched; a `"toggle"` payload decodes to `"toggle"`
when `"a" ∈ ids` and to the no-op `"none"` otherwise. -/
theorem decodeAction_spec_witness :
    decodeAction
      (some { id := "a", «default» := "show", card := none,
              persist_state := false, hide_in_preview := none })
      [IdEntry.str "b", IdEntry.map [("a", "hide")]] "set" = "hide" ∧
    applyAction
      (decodeAction
        (some { id := "a", «default» := "show", card := none,
                persist_state := false, hide_in_preview := none })
        [IdEntry.str "a"] "set") true = true ∧
    decodeAction
      (some { id := "a", «default» := "show", card := none,
              persist_state := false, hide_in_preview := none })
      [IdEntry.str "a"] "toggle" = "toggle" ∧
    decodeAction
      (some { id := "a", «default» := "show", card := none,
              persist_state := false, hide_in_preview := none })
      [IdEntry.str "b"] "toggle" = "none" := by
  refine ⟨?_, ?_, ?_, ?_⟩
  · exact ((decodeAction_spec _ _ "set" true).1 rfl).1 [("a", "hide")] "hide"
      (by decide) (by decide)
  · exact ((decodeAction_spec _ _ "set" true).1 rfl).2 (by decide)
  · exact ((decodeAction_spec _ _ "toggle" true).2 (by decide)).1 (by decide)
  · exact (((decodeAction_spec _ _ "toggle" true).2 (by decide)).2 (by decide)).1

/-! ### C7: reconciliation side effects -/

/-- C7: after `_computeAndSetVisible`, if the recomputed visible boolean
differs from the previous one then exactly one bubbling visibility-changed
notification is emitted, every storage write carries `show` (`explicitShow`,
not the effective boolean), and when persistence is enabled the write to the
instance's storage key is present; if the boolean is unchanged, no effect at
all (neither write nor notification) is produced. -/
theorem computeAndSetVisible_spec (s : LCC) :
    (computeVisibility s = s.visible → (computeAndSetVisible s).2 = []) ∧
    (computeVisibility s ≠ s.visible →
      ((computeAndSetVisible s).2.count Effect.visibilityChanged = 1) ∧
      (∀ k v, Effect.persistWrite k v ∈ (computeAndSetVisible s).2 →
        v = boolStr s.«show») ∧
      (∀ c, s.config = some c → c.persist_state = true →
        Effect.persistWrite (getStorageKey c) (boolStr s.«show») ∈
          (computeAndSetVisible s).2) ∧
      (∀ c, s.config = some c → c.persist_state = false →
        ∀ k v, Effect.persistWrite k v ∉ (computeAndSetVisible s).2)) := by
  constructor
  · exact fun h => casv_effects_of_eq s h
  · intro h
    have hb : (s.visible == computeVisibility s) = false :=
      beq_eq_false_iff_ne.mpr (fun hh => h hh.symm)
    refine ⟨?_, ?_, ?_, ?_⟩
    · cases hc : s.config with
      | none => simp [computeAndSetVisible, hb, hc]
      | some c =>
          cases hp : c.persist_state <;>
            simp [computeAndSetVisible, hb, hc, hp]
    · exact fun k v hmem => casv_write_val s k v hmem
    · intro c hc hp
      simp [computeAndSetVisible, hb, hc, hp]
    · intro c hc hp k v
      simp [computeAndSetVisible, hb, hc, hp]

/-- C7 witness: a state whose recomputed visibility (true) differs from the
stored `visible` (false), with persistence on, yields exactly the storage
write of `show` and one notification; the same state with `visible` already
true yields no effects. -/
theorem computeAndSetVisible_spec_witness :
    ((computeAndSetVisible statePersistStale).2.count Effect.visibilityChanged = 1) ∧
    (Effect.persistWrite (getStorageKey cfgPersist) (boolStr statePersistStale.«show») ∈
      (computeAndSetVisible statePersistStale).2) ∧
    ((computeAndSetVisible statePersistShown).2 = []) := by
  refine ⟨?_, ?_, ?_⟩
  · exact ((computeAndSetVisible_spec statePersistStale).2 (by decide)).1
  · exact ((computeAndSetVisible_spec statePersistStale).2 (by decide)).2.2.1
      cfgPersist rfl rfl
  · exact (computeAndSetVisible_spec statePersistShown).1 (by decide)

/-! ### C8: widget cache idempotence -/

/-- On a cache hit, `_createCard` returns the cached instance and leaves the
cache unchanged. -/
lemma createCard_of_lookup (cache : CardCache) (cfg : CardCfg) (el : Nat)
    (h : cache.entries.lookup (cardConfigKey cfg) = some el) :
    createCard cache cfg = (el, cache) := by
  simp [createCard, h]

/-- On a cache miss, `_createCard` allocates a fresh instance and prepends
the new entry. -/
lemma createCard_of_lookup_none (cache : CardCache) (cfg : CardCfg)
    (h : cache.entries.lookup (cardConfigKey cfg) = none) :
    createCard cache cfg =
      (cache.nextId,
        ⟨(cardConfigKey cfg, cache.nextId) :: cache.entries, cache.nextId + 1⟩) := by
  simp [createCard, h]

/-- After any creation, the config's key is cached and maps to the returned
instance. -/
lemma createCard_lookup (cache : CardCache) (cfg : CardCfg) :
    (createCard cache cfg).2.entries.lookup (cardConfigKey cfg) =
      some (createCard cache cfg).1 := by
  cases h : cache.entries.lookup (cardConfigKey cfg) with
  | some el => rw [createCard_of_lookup cache cfg el h]; exact h
  | none => rw [createCard_of_lookup_none cache cfg h]; simp [List.lookup]

/-- C8: widget creation is idempotent by serialized key: a second request
whose key equals the first's returns the identical cached instance and
leaves the cache unchanged; requests with different keys yield two
independent cache entries (each key mapping to its own returned instance);
two equally-serialized specs share one key, and two non-serializable specs
of the same declared kind share one key — hence one cache entry. -/
theorem createCard_spec (cache : CardCache) (cfg cfg' : CardCfg) :
    (cardConfigKey cfg' = cardConfigKey cfg →
      (createCard (createCard cache cfg).2 cfg').1 = (createCard cache cfg).1 ∧
      (createCard (createCard cache cfg).2 cfg').2 = (createCard cache cfg).2) ∧
    (cardConfigKey cfg' ≠ cardConfigKey cfg →
      (createCard (createCard cache cfg).2 cfg').2.entries.lookup
          (cardConfigKey cfg) = some (createCard cache cfg).1 ∧
      (createCard (createCard cache cfg).2 cfg').2.entries.lookup
          (cardConfigKey cfg') = some (createCard (createCard cache cfg).2 cfg').1) ∧
    (∀ str, cfg.serialized = some str → cfg'.serialized = some str →
      cardConfigKey cfg' = cardConfigKey cfg) ∧
    (cfg.serialized = none → cfg'.serialized = none → cfg.type = cfg'.type →
      cardConfigKey cfg' = cardConfigKey cfg) := by
  refine ⟨?_, ?_, ?_, ?_⟩
  · intro hkey
    have h := createCard_lookup cache cfg
    rw [← hkey] at h
    rw [createCard_of_lookup _ cfg' _ h]
    exact ⟨rfl, rfl⟩
  · intro hkey
    constructor
    · have h1 := createCard_lookup cache cfg
      cases h : (createCard cache cfg).2.entries.lookup (cardConfigKey cfg') with
      | some el => rw [createCard_of_lookup _ cfg' _ h]; exact h1
      | none =>
          rw [createCard_of_lookup_none _ cfg' h]
          have hne : (cardConfigKey cfg == cardConfigKey cfg') = false :=
            beq_eq_false_iff_ne.mpr (Ne.symm hkey)
          simpa [List.lookup, hne] using h1
    · exact createCard_lookup _ cfg'
  · intro str h h'
    simp [cardConfigKey, h, h']
  · intro h h' ht
    simp [cardConfigKey, h, h', ht]

/-- C8 witness: from an empty cache, re-creating with the same serialized
spec returns the identical instance; a differently-serialized spec gets an
independent entry; two distinct non-serializable specs of kind `"x"` share
one key. -/
theorem createCard_spec_witness :
    ((createCard (createCard ⟨[], 0⟩ ⟨some "{t}", some "t"⟩).2 ⟨some "{t}", some "t"⟩).1 =
      (createCard ⟨[], 0⟩ ⟨some "{t}", some "t"⟩).1) ∧
    ((createCard (createCard ⟨[], 0⟩ ⟨some "{t}", some "t"⟩).2 ⟨some "{u}", some "u"⟩).2.entries.lookup
        (cardConfigKey ⟨some "{t}", some "t"⟩) =
      some (createCard ⟨[], 0⟩ ⟨some "{t}", some "t"⟩).1) ∧
    (cardConfigKey (⟨none, some "x"⟩ : CardCfg) = cardConfigKey (⟨none, some "x"⟩ : CardCfg)) := by
  refine ⟨?_, ?_, rfl⟩
  · exact (((createCard_spec ⟨[], 0⟩ ⟨some "{t}", some "t"⟩ ⟨some "{t}", some "t"⟩).1) rfl).1
  · exact ((createCard_spec ⟨[], 0⟩ ⟨some "{t}", some "t"⟩ ⟨some "{u}", some "u"⟩).2.1
      (by decide)).1

/-! ### C5: configure failure modes -/

/-- C5 counterexample: calling `setConfig` with a configuration whose widget
spec (`card`) is missing does fail, but partial state *is* retained: starting
from `statePlainHidden` (stored config `cfgPlain`, `show = false`), after the
failing call the stored configuration has become the new card-less config and
`show` has been reset to `true` from its `default`. -/
theorem setConfig_partial_state_counterexample :
    (setConfig (some cfgNoCard) statePlainHidden).1 =
      Except.error "No card configured" ∧
    (setConfig (some cfgNoCard) statePlainHidden).2.«show» = true ∧
    statePlainHidden.«show» = false ∧
    (setConfig (some cfgNoCard) statePlainHidden).2.config = some cfgNoCard ∧
    statePlainHidden.config = some cfgPlain ∧
    cfgPlain ≠ cfgNoCard := by
  exact ⟨rfl, rfl, rfl, rfl, rfl, by decide⟩

/-- C5 (amended): `setConfig` fails whenever the configuration object or its
widget spec is missing; when the configuration object is missing the state is
unchanged, but when the widget spec is missing the stored configuration and
`show` have already been overwritten (with the new config and its `default`)
before the failure; with both present it succeeds. -/
theorem setConfig_spec (s : LCC) (cfg? : Option Config) :
    (cfg? = none → setConfig cfg? s = (.error "Missing configuration", s)) ∧
    (∀ c, cfg? = some c → c.card = none →
      setConfig cfg? s =
        (.error "No card configured",
          { s with config := some c, «show» := (c.«default» == "show") })) ∧
    (∀ c cc, cfg? = some c → c.card = some cc →
      (setConfig cfg? s).1 = .ok () ∧
      (setConfig cfg? s).2 =
        { s with config := some c, «show» := (c.«default» == "show") }) := by
  refine ⟨?_, ?_, ?_⟩
  · intro h; subst h; rfl
  · intro c h hcard
    subst h
    simp [setConfig, hcard]
  · intro c cc h hcard
    subst h
    simp [setConfig, hcard]

/-- C5 witness: the three branches of `setConfig_spec` at concrete inputs. -/
theorem setConfig_spec_witness :
    setConfig none statePlainHidden =
      (.error "Missing configuration", statePlainHidden) ∧
    setConfig (some cfgNoCard) statePlainHidden =
      (.error "No card configured",
        { statePlainHidden with
          config := some cfgNoCard,
          «show» := (cfgNoCard.«default» == "show") }) ∧
    (setConfig (some cfgPersist) statePlainHidden).1 = .ok () := by
  refine ⟨?_, ?_, ?_⟩
  · exact (setConfig_spec statePlainHidden none).1 rfl
  · exact (setConfig_spec statePlainHidden (some cfgNoCard)).2.1 cfgNoCard rfl rfl
  · exact ((setConfig_spec statePlainHidden (some cfgPersist)).2.2 cfgPersist
      ⟨some "{}", some "x"⟩ rfl rfl).1

/-! ### C6: persisted-value load -/

/-- C6 counterexample: with `persist_state` enabled, loading the persisted
value `"false"` into `statePersistShown` (whose `show` and `visible` are
true) overrides `show` and, because the reconciliation it runs changes the
effective boolean, *does* schedule a persistence write — contradicting the
claim that the load never re-triggers a write to the storage adapter. -/
theorem restore_triggers_write_counterexample :
    statePersistShown.config = some cfgPersist ∧
    cfgPersist.persist_state = true ∧
    (restoreFromStorage (some "false") statePersistShown).2 =
      [Effect.persistWrite (getStorageKey cfgPersist) "false",
       Effect.visibilityChanged] := by
  exact ⟨rfl, rfl, rfl⟩

/-- C6 (amended): the persisted-value load overrides `show` at most once —
only when the parsed value differs from the current `show`, otherwise state
and effects are untouched — and when the override changes the
effective-visible boolean and `persist_state` is enabled, the reconciliation
it runs schedules exactly one persistence write, carrying exactly the
just-loaded value (besides the one notification); any write it ever
schedules carries that value; when the override leaves the effective boolean
unchanged, no write (and no notification) occurs at all. -/
theorem restoreFromStorage_spec (s : LCC) (v : String) :
    (restoreFromStorage none s = (s, [])) ∧
    ((v == "true") = s.«show» → restoreFromStorage (some v) s = (s, [])) ∧
    ((v == "true") ≠ s.«show» →
      ((restoreFromStorage (some v) s).1.«show» = (v == "true")) ∧
      (∀ k val, Effect.persistWrite k val ∈ (restoreFromStorage (some v) s).2 →
        val = boolStr (v == "true")) ∧
      (∀ c, s.config = some c → c.persist_state = true →
        computeVisibility { s with «show» := (v == "true") } ≠ s.visible →
        (restoreFromStorage (some v) s).2 =
          [Effect.persistWrite (getStorageKey c) (boolStr (v == "true")),
           Effect.visibilityChanged]) ∧
      (computeVisibility { s with «show» := (v == "true") } = s.visible →
        (restoreFromStorage (some v) s).2 = [])) := by
  refine ⟨rfl, ?_, ?_⟩
  · intro h
    simp [restoreFromStorage, h]
  · intro h
    have hb : ((v == "true") == s.«show») = false := beq_eq_false_iff_ne.mpr h
    have hrw : restoreFromStorage (some v) s =
        computeAndSetVisible { s with «show» := (v == "true") } := by
      simp [restoreFromStorage, hb]
    refine ⟨?_, ?_, ?_, ?_⟩
    · rw [hrw, casv_show]
    · intro k val hmem
      rw [hrw] at hmem
      exact casv_write_val _ k val hmem
    · intro c hc hcp hv
      rw [hrw]
      exact casv_effects_of_ne_persist { s with «show» := (v == "true") } c
        (by simpa using hv) (by simpa using hc) hcp
    · intro hv
      rw [hrw]
      exact casv_effects_of_eq _ hv

/-- C6 witness: loading `"true"` into a shown state is a no-op; loading
`"false"` overrides `show` and — persistence being enabled and the effective
boolean changing — schedules exactly one persistence write of the loaded
value; loading `"false"` in preview mode (where the effective boolean stays
true) produces no effects. -/
theorem restoreFromStorage_spec_witness :
    (restoreFromStorage (some "true") statePersistShown =
      (statePersistShown, [])) ∧
    ((restoreFromStorage (some "false") statePersistShown).1.«show» =
      ("false" == "true")) ∧
    ((restoreFromStorage (some "false") statePersistShown).2 =
      [Effect.persistWrite (getStorageKey cfgPersist) (boolStr ("false" == "true")),
       Effect.visibilityChanged]) ∧
    ((restoreFromStorage (some "false") statePreviewShown).2 = []) := by
  refine ⟨?_, ?_, ?_, ?_⟩
  · exact (restoreFromStorage_spec statePersistShown "true").2.1 (by decide)
  · exact ((restoreFromStorage_spec statePersistShown "false").2.2 (by decide)).1
  · exact ((restoreFromStorage_spec statePersistShown "false").2.2
      (by decide)).2.2.1 cfgPersist rfl rfl (by decide)
  · exact ((restoreFromStorage_spec statePreviewShown "false").2.2
      (by decide)).2.2.2 (by decide)

/-! ### C3: coalescer single-delivery invariant -/

/-- C3: the coalescer keeps at most one scheduled delivery outstanding:
every raw signal overwrites the single-slot buffer (last-write-wins), a new
delivery is scheduled only when none is pending, and a firing delivery
drains the buffer and clears the pending flag, preserving the bookkeeping
invariant that the outstanding-callback count is 1 exactly when the pending
flag is set (hence always at most 1). -/
theorem coalescer_invariant (s : LCC) (e : Payload) (hInv : CoalescerInv s) :
    CoalescerInv (handleLovelaceDomEvent e s) ∧
    (handleLovelaceDomEvent e s).lastEvent = some e ∧
    (s.pending = true → (handleLovelaceDomEvent e s).scheduled = s.scheduled) ∧
    (s.pending = false →
      (handleLovelaceDomEvent e s).scheduled = s.scheduled + 1) ∧
    (s.pending = true →
      CoalescerInv (processQueuedLovelaceEvent s).1 ∧
      (processQueuedLovelaceEvent s).1.lastEvent = none ∧
      (processQueuedLovelaceEvent s).1.pending = false) ∧
    s.scheduled ≤ 1 := by
  unfold CoalescerInv at hInv
  refine ⟨?_, handle_lastEvent e s, ?_, ?_, ?_, ?_⟩
  · unfold CoalescerInv
    rw [handle_scheduled, handle_pending]
    cases hp : s.pending <;> simp [hp] at hInv ⊢ <;> omega
  · intro hp
    rw [handle_scheduled, hp]
    simp
  · intro hp
    rw [handle_scheduled, hp]
    simp
  · intro hp
    rw [hp] at hInv
    simp only [if_true] at hInv
    cases hle : s.lastEvent with
    | none =>
        refine ⟨?_, ?_, ?_⟩ <;>
          simp [processQueuedLovelaceEvent, CoalescerInv, hle, hInv]
    | some p =>
        refine ⟨?_, ?_, ?_⟩ <;>
          simp [processQueuedLovelaceEvent, CoalescerInv, hle, hInv]
  · cases hp : s.pending <;> rw [hp] at hInv <;> simp at hInv <;> omega

/-- C3 witness: starting from the quiescent `statePlainHidden`, handling one
signal establishes the invariant, and the subsequent delivery drains the
buffer. -/
theorem coalescer_invariant_witness :
    CoalescerInv (handleLovelaceDomEvent payloadShow statePlainHidden) ∧
    (processQueuedLovelaceEvent
      (handleLovelaceDomEvent payloadShow statePlainHidden)).1.lastEvent = none := by
  constructor
  · exact (coalescer_invariant statePlainHidden payloadShow rfl).1
  · exact ((coalescer_invariant
      (handleLovelaceDomEvent payloadShow statePlainHidden) payloadShow
      rfl).2.2.2.2.1 rfl).2.1

/-! ### C2: signal stream semantics -/

/-- C2 counterexample: the claim predicts that the final `show` equals the
left-fold of the *raw* signal sequence even when signals burst within one
frame; but from `statePlainHidden` (default `hide`, id `"a"`), the single
frame `[show, toggle]` yields `show = true` (only the last buffered signal,
`toggle`, is decoded), while the fold over the raw sequence
(`show ↦ true` then `toggle ↦ negate`) yields `false`. -/
theorem coalesced_fold_counterexample :
    (runFrames [[payloadShow, payloadToggle]] statePlainHidden).1.«show» = true ∧
    [payloadShow, payloadToggle].foldl
      (fun b p => applyAction (decodeAction statePlainHidden.config p.ids p.action) b)
      statePlainHidden.«show» = false := by
  exact ⟨rfl, rfl⟩

/-- C2 (amended): for every sequence of frames of raw signals, the final
`show` equals the left-fold of the *coalesced* signal sequence — the last
buffered signal of each frame — over the decoded actions
(`show ↦ true`, `hide ↦ false`, `toggle ↦ negate`, others no-op), starting
from the current `show` (as set from the configured default); when each
signal arrives in its own frame this is exactly the left-fold of the full
signal sequence; and sending the same signal `n + 1` times within one frame
has the same effect (state and side effects) as sending it once. -/
theorem coalesced_fold_spec (frames : List (List Payload)) (s : LCC)
    (hp : s.pending = false) (hl : s.lastEvent = none) (hs : s.scheduled = 0) :
    ((runFrames frames s).1.«show» =
      (frames.filterMap lastSignal).foldl
        (fun b p => applyAction (decodeAction s.config p.ids p.action) b)
        s.«show») ∧
    (∀ sigs : List Payload,
      (runFrames (sigs.map (fun p => [p])) s).1.«show» =
        sigs.foldl
          (fun b p => applyAction (decodeAction s.config p.ids p.action) b)
          s.«show») ∧
    (∀ (p : Payload) (n : ℕ),
      runFrame (List.replicate (n + 1) p) s = runFrame [p] s) := by
  refine ⟨runFrames_show frames s hp hl hs, ?_, ?_⟩
  · intro sigs
    rw [runFrames_show (sigs.map (fun p => [p])) s hp hl hs,
      filterMap_singleton_frames]
  · intro p n
    unfold runFrame
    rw [foldl_handle_replicate p n s, List.foldl_cons, List.foldl_nil]

/-- C2 witness: from `statePlainHidden`, delivering `show` then `toggle` in
separate frames folds to `false`, and 100 copies of `show` in one frame act
exactly like one. -/
theorem coalesced_fold_spec_witness :
    ((runFrames [[payloadShow], [payloadToggle]] statePlainHidden).1.«show» =
      ([[payloadShow], [payloadToggle]].filterMap lastSignal).foldl
        (fun b p => applyAction (decodeAction statePlainHidden.config p.ids p.action) b)
        statePlainHidden.«show») ∧
    (runFrame (List.replicate 100 payloadShow) statePlainHidden =
      runFrame [payloadShow] statePlainHidden) := by
  constructor
  · exact (coalesced_fold_spec [[payloadShow], [payloadToggle]]
      statePlainHidden rfl rfl rfl).1
  · exact (coalesced_fold_spec [] statePlainHidden rfl rfl rfl).2.2 payloadShow 99

end LocalConditionalCard
